import Mathlib

/-!
# rinha-go: validation rules and persistence layer

A shallow embedding of `main.go` (the date predicates and the four HTTP
handlers) and of `repository/repository.go` (the four parameterised queries),
followed by the properties proved about them.

Conventions of the embedding

* a Go `string` is a Lean `String`, read as its sequence of code points, so
  `len([]rune(s))` is `s.length`; the strings of a payload come out of the JSON
  decoder, which only produces valid UTF-8;
* a Go pointer `*T` is an `Option T` (`nil` is `none`);
* the three sources of nondeterminism of the create handler (the wall clock
  read by `time.Now()`, the identifier drawn by `uuid.New()`, and whether the
  round trip to the store fails) are explicit inputs gathered in `Env`;
* the PostgreSQL table `pessoas` is a list of rows in insertion order, with the
  constraints declared by the `CREATE TABLE` statement of `main.go`;
* what the code calls in Go's `regexp`, `time` and `encoding/json`, in Fiber,
  in pgx and in PostgreSQL (`DATE`, `JSON`, `ILIKE`, `LIMIT`, `to_char`) is
  embedded as far as the handlers and the four statements exercise it.
-/

namespace RinhaGo

/-! ## Regular expressions: the fragment used by `datePattern` -/

/-- ASCII digit test, `'0' <= c && c <= '9'`; it is both what `\d` means in
Go's `regexp` and what `time.isDigit` computes. -/
def isDigit (c : Char) : Bool :=
  decide (48 ≤ c.toNat) && decide (c.toNat ≤ 57)

/-- Syntax of the regular expressions needed for `\d{4}-\d{2}-\d{2}`. -/
inductive Regex where
  | digit : Regex
  | lit (c : Char) : Regex
  | seq (a b : Regex) : Regex
  | rep (n : Nat) (r : Regex) : Regex

/-- Iterate a prefix matcher `n` times, collecting every possible rest. -/
def repRun (f : List Char → List (List Char)) : Nat → List Char → List (List Char)
  | 0, cs => [cs]
  | n + 1, cs => (f cs).flatMap (repRun f n)

/-- All the ways a regular expression matches a prefix of the input: the list
of the remaining inputs. -/
def Regex.run : Regex → List Char → List (List Char)
  | .digit, [] => []
  | .digit, c :: cs => if isDigit c then [cs] else []
  | .lit _, [] => []
  | .lit a, c :: cs => if c = a then [cs] else []
  | .seq a b, cs => (a.run cs).flatMap b.run
  | .rep n r, cs => repRun r.run n cs

/-- Matching of `^r$` (no multi-line flag): the whole text, and nothing but the
text, is matched by `r`. -/
def Regex.matchWhole (r : Regex) (s : String) : Bool :=
  (r.run s.data).any List.isEmpty

/-- The body of `datePattern`, between its anchors `^` and `$`. -/
def datePattern : Regex :=
  .seq (.rep 4 .digit) (.seq (.lit '-') (.seq (.rep 2 .digit) (.seq (.lit '-') (.rep 2 .digit))))

/-- Embedding of `isValidDateFormat` (main.go). -/
def isValidDateFormat (date : String) : Bool :=
  datePattern.matchWhole date

/-! ## Calendar time: the part of Go's `time` package used by `isValidDateValue` -/

/-- A `time.Time`, kept as its civil fields: year, month, day and the second of
the day. -/
structure Time where
  year : Nat
  month : Nat
  day : Nat
  sec : Nat
  deriving DecidableEq, Repr

/-- Projection `Time.Date()`. -/
def Time.Date (t : Time) : Nat × Nat × Nat := (t.year, t.month, t.day)

/-- Projection `Time.Year()`. -/
def Time.Year (t : Time) : Nat := t.year

/-- Table `daysBefore` of Go's `time` package: days before each month in a
non-leap year, with a final entry for the whole year. -/
def daysBefore : List Nat :=
  [0, 31, 59, 90, 120, 151, 181, 212, 243, 273, 304, 334, 365]

/-- Go's `isLeap`. -/
def isLeap (year : Nat) : Bool :=
  year % 4 == 0 && (year % 100 != 0 || year % 400 == 0)

/-- Go's `daysIn`. -/
def daysIn (m year : Nat) : Nat :=
  if m == 2 && isLeap year then 29
  else daysBefore.getD m 0 - daysBefore.getD (m - 1) 0

/-- Go's `leadingInt`: consume the leading decimal digits, accumulating their
value, and return it with the rest of the input. -/
def leadingInt : List Char → Nat → Nat × List Char
  | [], x => (x, [])
  | c :: cs, x => if isDigit c then leadingInt cs (x * 10 + (c.toNat - 48)) else (x, c :: cs)

/-- Go's `atoi` on an input whose first character the caller has already
checked to be a digit (so the sign branch is not taken): all of the input has
to be digits. -/
def atoi (s : List Char) : Option Nat :=
  match leadingInt s 0 with
  | (q, []) => some q
  | (_, _ :: _) => none

/-- Go's `getnum` with `fixed = true`: exactly two digits are required. -/
def getnum : List Char → Option (Nat × List Char)
  | a :: b :: rest =>
    if isDigit a && isDigit b then some ((a.toNat - 48) * 10 + (b.toNat - 48), rest) else none
  | _ => none

/-- Go's `time.Parse("2006-01-02", value)`: a four-digit year, `-`, a two-digit
month in `1..12`, `-`, a two-digit day, no extra text, and finally the check
that the day exists in that month of that year. `none` stands for every
error. -/
def parse (value : List Char) : Option Time :=
  match value with
  | y0 :: y1 :: y2 :: y3 :: value =>
    if !isDigit y0 then none else
    match atoi [y0, y1, y2, y3] with
    | none => none
    | some year =>
      match value with
      | '-' :: value =>
        match getnum value with
        | none => none
        | some (month, value) =>
          if month = 0 || 12 < month then none else
          match value with
          | '-' :: value =>
            match getnum value with
            | none => none
            | some (day, value) =>
              if !value.isEmpty then none
              else if day < 1 || day > daysIn month year then none
              else some { year := year, month := month, day := day, sec := 0 }
          | _ => none
      | _ => none
  | _ => none

/-- Embedding of `isValidDateValue` (main.go); `now` is what `time.Now()`
returns when the function runs. -/
def isValidDateValue (now : Time) (date : String) : Bool :=
  match parse date.data with
  | none => false
  | some parsedDate =>
    match parsedDate.Date with
    | (year, month, day) =>
      if year < 1900 || year > now.Year || month < 1 || month > 12 || day < 1 || day > 31 then
        false
      else
        true

/-! ## Data model -/

/-- The payload struct the create handler decodes the JSON body into. -/
structure Payload where
  Apelido : Option String
  Nome : Option String
  Nascimento : Option String
  Stack : Option (List (Option String))
  deriving DecidableEq, Repr

/-- Embedding of `repository.Pessoa`. -/
structure Pessoa where
  ID : Option String
  Apelido : Option String
  Nome : Option String
  Nascimento : Option String
  Stack : Option (List (Option String))
  deriving DecidableEq, Repr

/-- A value of the SQL type `DATE`. -/
structure PgDate where
  year : Nat
  month : Nat
  day : Nat
  deriving DecidableEq, Repr

/-- A row of table `pessoas` as `CREATE TABLE` declares it: `id uuid UNIQUE NOT
NULL`, `apelido TEXT UNIQUE NOT NULL`, `nome TEXT NOT NULL`, `nascimento DATE
NOT NULL`, `stack JSON` (nullable). The generated column `searchable` is the
function `Row.searchable` below. -/
structure Row where
  id : String
  apelido : String
  nome : String
  nascimento : PgDate
  stack : Option (List (Option String))
  deriving DecidableEq, Repr

/-- The table `pessoas`, in insertion order. -/
abbrev DB := List Row

/-- What can go wrong in a round trip to the store. -/
inductive StoreError where
  | unavailable
  | notNullViolation
  | invalidInput
  | uniqueViolation
  | noRows
  | badEscape
  deriving DecidableEq, Repr

/-! ## The store: text forms of dates and of the JSON column -/

/-- Input conversion of a text parameter to `DATE`, for the ISO form
`YYYY-MM-DD` of an existing day. Other texts are answered with an error here;
the create handler only ever sends texts that passed `isValidDateValue`. -/
def dateIn (s : String) : Option PgDate :=
  match parse s.data with
  | none => none
  | some t => some { year := t.year, month := t.month, day := t.day }

/-- The decimal digit character of `n % 10`. -/
def digitChar (n : Nat) : Char := Char.ofNat (48 + n % 10)

/-- SQL `to_char(d, 'YYYY-MM-DD')` for years of at most four digits. -/
def toChar (d : PgDate) : String :=
  ⟨[digitChar (d.year / 1000), digitChar (d.year / 100), digitChar (d.year / 10),
    digitChar d.year, '-', digitChar (d.month / 10), digitChar d.month, '-',
    digitChar (d.day / 10), digitChar d.day]⟩

/-- A hexadecimal digit, lower case. -/
def hexDigit (n : Nat) : Char :=
  if n % 16 < 10 then Char.ofNat (48 + n % 16) else Char.ofNat (87 + n % 16)

/-- How Go's `json.Marshal` writes one character of a string: the quote and
the backslash are escaped, as are line feed, carriage return and tab; the
other control characters, `<`, `>`, `&`, U+2028 and U+2029 are written
`\u` followed by four hexadecimal digits (backspace and form feed too, as the
Go releases before 1.22 write them). -/
def escapeRune (c : Char) : List Char :=
  if c = '"' then ['\\', '"']
  else if c = '\\' then ['\\', '\\']
  else if c = '\n' then ['\\', 'n']
  else if c = '\r' then ['\\', 'r']
  else if c = '\t' then ['\\', 't']
  else if c.toNat < 32 || c = '<' || c = '>' || c = '&' || c.toNat = 8232 || c.toNat = 8233 then
    ['\\', 'u', hexDigit (c.toNat / 4096), hexDigit (c.toNat / 256), hexDigit (c.toNat / 16),
      hexDigit c.toNat]
  else [c]

/-- JSON text of one stack entry: `null` for a nil pointer, else the quoted
string. -/
def entryText : Option String → List Char
  | none => ['n', 'u', 'l', 'l']
  | some s => '"' :: (s.data.flatMap escapeRune ++ ['"'])

/-- JSON text of the entries of a stack, separated by commas. -/
def entriesText : List (Option String) → List Char
  | [] => []
  | [e] => entryText e
  | e :: rest => entryText e ++ ',' :: entriesText rest

/-- JSON text of a non-nil stack as it is sent for `$5::json` and kept by the
`JSON` column. -/
def stackText (stack : List (Option String)) : List Char :=
  '[' :: (entriesText stack ++ [']'])

/-- The generated column: `generate_searchable(nome, apelido, stack)`, that is
`_nome || _apelido || _stack`; `||` is strict, so the value is NULL when the
stack is NULL. -/
def Row.searchable (r : Row) : Option (List Char) :=
  match r.stack with
  | none => none
  | some stack => some (r.nome.data ++ r.apelido.data ++ stackText stack)

/-! ## The store: `ILIKE` -/

/-- Try a matcher on the text and then on each of its proper suffixes, until
one answers true or fails. -/
def anySuffix (f : List Char → Except StoreError Bool) : List Char → Except StoreError Bool
  | [] => f []
  | c :: t =>
    match f (c :: t) with
    | .error e => .error e
    | .ok true => .ok true
    | .ok false => anySuffix f t

/-- SQL `text LIKE pattern` with the default escape character: the pattern has
to match the whole text, `%` stands for any sequence of characters, `_` for any
one character, and a backslash makes the next pattern character literal. A
pattern that ends in a lone backslash is an error when the matcher reaches it
with text left. The pattern comes first. -/
def like : List Char → List Char → Except StoreError Bool
  | [], t => .ok t.isEmpty
  | '%' :: p, t => anySuffix (like p) t
  | '_' :: _, [] => .ok false
  | '_' :: p, _ :: t => like p t
  | '\\' :: _, [] => .ok false
  | ['\\'], _ :: _ => .error .badEscape
  | '\\' :: c :: p, d :: t => if c = d then like p t else .ok false
  | _ :: _, [] => .ok false
  | c :: p, d :: t => if c = d then like p t else .ok false

/-- SQL `text ILIKE pattern`: `LIKE` after folding both sides to lower case.
The folding is that of the ASCII letters; the letters outside ASCII, which the
locale of the database may fold as well, are left as they are. -/
def ilike (text pattern : List Char) : Except StoreError Bool :=
  like (pattern.map Char.toLower) (text.map Char.toLower)

/-! ## The repository (repository.go) -/

/-- What `Scan` reads from one row of the `SELECT` lists of `Get` and
`SearchByTerm`: the date comes back as `to_char(nascimento, 'YYYY-MM-DD')`. -/
def Row.toPessoa (r : Row) : Pessoa :=
  { ID := some r.id, Apelido := some r.apelido, Nome := some r.nome,
    Nascimento := some (toChar r.nascimento), Stack := r.stack }

/-- The zero value of `Pessoa` (`var p Pessoa`). -/
def Pessoa.zero : Pessoa :=
  { ID := none, Apelido := none, Nome := none, Nascimento := none, Stack := none }

/-- Embedding of `repository.Save`: one `INSERT`. `down` says that the round
trip itself fails. The insert is refused when a `NOT NULL` column would get
NULL, when the text is no date, and when the id or the nickname is already in
the table (the two `UNIQUE` constraints). The result is the new table and the
returned `error` (`none` is `nil`). -/
def Save (down : Bool) (db : DB) (p : Pessoa) : DB × Option StoreError :=
  if down then (db, some .unavailable) else
  match p.ID, p.Apelido, p.Nome, p.Nascimento with
  | some id, some apelido, some nome, some nascimento =>
    match dateIn nascimento with
    | none => (db, some .invalidInput)
    | some d =>
      if db.any (fun r => r.id = id) || db.any (fun r => r.apelido = apelido) then
        (db, some .uniqueViolation)
      else
        (db ++ [{ id := id, apelido := apelido, nome := nome, nascimento := d,
                  stack := p.Stack }], none)
  | _, _, _, _ => (db, some .notNullViolation)

/-- Embedding of `repository.Get`: `QueryRow(... WHERE "id" = $1).Scan(...)`;
the error is `noRows` when no row has the id. -/
def Get (down : Bool) (db : DB) (id : String) : Pessoa × Option StoreError :=
  if down then (Pessoa.zero, some .unavailable) else
  match db.find? (fun r => r.id = id) with
  | none => (Pessoa.zero, some .noRows)
  | some r => (r.toPessoa, none)

/-- The rows the statement of `SearchByTerm` streams back: a scan of the table
for `searchable ILIKE $1`, stopped by `LIMIT` after `limit` rows. A row whose
`searchable` is NULL is skipped. An error raised while the rows are produced
ends the stream; `SearchByTerm` never consults `rows.Err()`, so all it sees is
that `rows.Next()` answers false. -/
def scanIlike (t : List Char) : Nat → DB → List Row
  | 0, _ => []
  | _ + 1, [] => []
  | limit + 1, r :: rest =>
    match r.searchable with
    | none => scanIlike t (limit + 1) rest
    | some text =>
      match ilike text t with
      | .error _ => []
      | .ok true => r :: scanIlike t limit rest
      | .ok false => scanIlike t (limit + 1) rest

/-- Go's `append(ps, p)` on a slice that may be nil (`none`): the result is
never nil. -/
def appendSlice {α : Type} (ps : Option (List α)) (p : α) : Option (List α) :=
  some (ps.getD [] ++ [p])

/-- Go's `len` of a slice that may be nil. -/
def sliceLen {α : Type} (ps : Option (List α)) : Nat := (ps.getD []).length

/-- Embedding of `repository.SearchByTerm`: the term is passed as it is as the
right operand of `ILIKE`; `ps` starts as the nil slice (`var ps []Pessoa`) and
grows by one `append` per row read. -/
def SearchByTerm (down : Bool) (db : DB) (t : String) : Option (List Pessoa) × Option StoreError :=
  if down then (none, some .unavailable) else
  ((scanIlike t.data 50 db).foldl (fun ps r => appendSlice ps r.toPessoa) none, none)

/-- Embedding of `repository.Count`: `SELECT COUNT(1) FROM pessoas`. -/
def Count (down : Bool) (db : DB) : Nat × Option StoreError :=
  if down then (0, some .unavailable) else (db.length, none)

/-! ## HTTP responses and JSON bodies -/

/-- JSON values, as far as the responses need them. -/
inductive Json where
  | null : Json
  | str (s : String) : Json
  | arr (items : List Json) : Json
  | obj (fields : List (String × Json)) : Json

/-- Whether a JSON value is an array. -/
def Json.isArray : Json → Bool
  | .arr _ => true
  | _ => false

/-- `json.Marshal` of a `*string`. -/
def marshalString : Option String → Json
  | none => .null
  | some s => .str s

/-- `json.Marshal` of a `*[]*string`. -/
def marshalStack : Option (List (Option String)) → Json
  | none => .null
  | some entries => .arr (entries.map marshalString)

/-- `json.Marshal` of a `Pessoa`, following its field tags. -/
def marshalPessoa (p : Pessoa) : Json :=
  .obj [("id", marshalString p.ID), ("apelido", marshalString p.Apelido),
        ("nome", marshalString p.Nome), ("nascimento", marshalString p.Nascimento),
        ("stack", marshalStack p.Stack)]

/-- `json.Marshal` of a `[]Pessoa`: the nil slice is written `null`, any other
slice as an array. -/
def marshalPessoas : Option (List Pessoa) → Json
  | none => .null
  | some ps => .arr (ps.map marshalPessoa)

/-- Body of a response. -/
inductive Body where
  | statusMessage : Body
  | json (j : Json) : Body
  | text (s : String) : Body

/-- A response: status, `Location` header if any, body. -/
structure Response where
  status : Nat
  location : Option String
  body : Body

/-- Fiber's `c.SendStatus(status)` on a fresh response: the status is set and,
the body being empty, the standard message of the status becomes the body. -/
def SendStatus (status : Nat) : Response :=
  { status := status, location := none, body := .statusMessage }

/-- Fiber's `c.JSON(data)`: status 200 and the marshalled data as the body. -/
def sendJSON (j : Json) : Response :=
  { status := 200, location := none, body := .json j }

/-- The part of a `fiber.Ctx` the handlers read: the parameters of the matched
route and the query string. -/
structure Ctx where
  params : List (String × String)
  query : List (String × String)

/-- Fiber's `c.Params(key)`: the value of the route parameter, or the empty
string when the route has no such parameter. -/
def Ctx.Params (c : Ctx) (key : String) : String :=
  match c.params.lookup key with
  | some v => v
  | none => ""

/-- The context of a request routed to `/pessoas/:id`. -/
def ctxPessoaById (id : String) (query : List (String × String)) : Ctx :=
  { params := [("id", id)], query := query }

/-- The context of a request routed to `/pessoas`: the route declares no
parameter. -/
def ctxPessoas (query : List (String × String)) : Ctx :=
  { params := [], query := query }

/-! ## The handlers (main.go) -/

/-- What a run of the create handler reads from outside the request and the
store: the clock, the identifier `uuid.New()` draws, and whether the round trip
to the store fails. -/
structure Env where
  now : Time
  uuid : String
  down : Bool

/-- The loop over the entries of the stack in the create handler: true when it
leaves the handler with status 422. -/
def stackLoop : List (Option String) → Bool
  | [] => false
  | none :: _ => true
  | some stack :: rest => if stack.length > 32 then true else stackLoop rest

/-- Embedding of the handler of `POST /pessoas`. `body` is the outcome of
`c.BodyParser(&payload)`, `none` when it returned an error. The result is the
response and the table after the request. -/
def postPessoas (env : Env) (db : DB) (body : Option Payload) : Response × DB :=
  match body with
  | none => (SendStatus 400, db)
  | some payload =>
    match payload.Apelido, payload.Nome, payload.Nascimento with
    | some apelido, some nome, some nascimento =>
      if apelido.length > 32 || nome.length > 100 then (SendStatus 422, db)
      else if !isValidDateFormat nascimento then (SendStatus 400, db)
      else if !isValidDateValue env.now nascimento then (SendStatus 422, db)
      else
        match payload.Stack with
        | none => (SendStatus 400, db)
        | some stack =>
          if stack.length > 0 && stackLoop stack then (SendStatus 422, db)
          else
            let id := env.uuid
            let saved := Save env.down db
              { ID := some id, Apelido := payload.Apelido, Nome := payload.Nome,
                Nascimento := payload.Nascimento, Stack := payload.Stack }
            ({ SendStatus 201 with location := some ("/pessoas/" ++ id) }, saved.1)
    | _, _, _ => (SendStatus 422, db)

/-- Embedding of the handler of `GET /pessoas/:id`. -/
def getPessoaById (down : Bool) (db : DB) (c : Ctx) : Response :=
  let id := c.Params "id"
  match Get down db id with
  | (_, some _) => SendStatus 404
  | (pessoa, none) => sendJSON (marshalPessoa pessoa)

/-- Embedding of the handler of `GET /pessoas`: the term is read with
`c.Params("t")`. -/
def getPessoas (down : Bool) (db : DB) (c : Ctx) : Response :=
  let t := c.Params "t"
  match SearchByTerm down db t with
  | (_, some _) => SendStatus 400
  | (pessoas, none) => sendJSON (marshalPessoas pessoas)

/-- Embedding of the handler of `GET /contagem-pessoas`. -/
def getContagem (down : Bool) (db : DB) : Response :=
  match Count down db with
  | (_, some _) => SendStatus 400
  | (count, none) => { status := 200, location := none, body := .text (toString count) }

/-! ## The specification's side

Definitions that follow the words of the specification, to be compared with
the embedding of the code above. -/

/-- The ten decimal digits. -/
def decimalDigits : List Char := ['0', '1', '2', '3', '4', '5', '6', '7', '8', '9']

/-- The shape `YYYY-MM-DD`: exactly ten characters, `-` at positions 4 and 7
and a decimal digit at each of the other positions. -/
def DateShape (s : String) : Prop :=
  s.length = 10 ∧
    ∀ i, i < 10 →
      if i = 4 ∨ i = 7 then s.data[i]? = some '-'
      else ∃ c, s.data[i]? = some c ∧ c ∈ decimalDigits

/-- The number a sequence of decimal digits writes. -/
def decimalValue (cs : List Char) : Nat :=
  cs.foldl (fun acc c => 10 * acc + (c.toNat - '0'.toNat)) 0

/-- The year field of a text of shape `YYYY-MM-DD`. -/
def yearField (s : String) : Nat := decimalValue (s.data.take 4)

/-- The month field of a text of shape `YYYY-MM-DD`. -/
def monthField (s : String) : Nat := decimalValue ((s.data.drop 5).take 2)

/-- The day field of a text of shape `YYYY-MM-DD`. -/
def dayField (s : String) : Nat := decimalValue ((s.data.drop 8).take 2)

/-- Leap years of the Gregorian calendar: the multiples of 4 that are not
multiples of 100, and the multiples of 400. -/
def GregorianLeap (y : Nat) : Prop := (y % 4 = 0 ∧ y % 100 ≠ 0) ∨ y % 400 = 0

instance (y : Nat) : Decidable (GregorianLeap y) := by
  unfold GregorianLeap; infer_instance

/-- Number of days of month `m` of year `y` in the Gregorian calendar. -/
def monthLength (y m : Nat) : Nat :=
  match m with
  | 1 => 31
  | 2 => if GregorianLeap y then 29 else 28
  | 3 => 31
  | 4 => 30
  | 5 => 31
  | 6 => 30
  | 7 => 31
  | 8 => 31
  | 9 => 30
  | 10 => 31
  | 11 => 30
  | 12 => 31
  | _ => 0

/-- A day that exists in the Gregorian calendar. -/
def RealDate (y m d : Nat) : Prop :=
  1 ≤ m ∧ m ≤ 12 ∧ 1 ≤ d ∧ d ≤ monthLength y m

/-- The checks of the create handler on a parsed payload, in the order the
specification lists them. -/
inductive Check where
  | requiredNull
  | tooLong
  | datePattern
  | dateValue
  | stackNull
  | stackEntry
  deriving DecidableEq, Repr

/-- The fixed order of the checks. -/
def Check.order : List Check :=
  [.requiredNull, .tooLong, .datePattern, .dateValue, .stackNull, .stackEntry]

/-- The status a failing check answers with. -/
def Check.status : Check → Nat
  | .requiredNull => 422
  | .tooLong => 422
  | .datePattern => 400
  | .dateValue => 422
  | .stackNull => 400
  | .stackEntry => 422

/-- A stack entry that is null or longer than 32 code points. -/
def badEntry : Option String → Bool
  | none => true
  | some e => decide (32 < e.length)

/-- Whether a check fails on a payload, when the current year is that of
`now`. A check on the content of a field does not fail on a null field. -/
def Check.fails (now : Time) (p : Payload) : Check → Bool
  | .requiredNull => p.Apelido.isNone || p.Nome.isNone || p.Nascimento.isNone
  | .tooLong =>
    (match p.Apelido with
      | some a => decide (32 < a.length)
      | none => false) ||
    (match p.Nome with
      | some n => decide (100 < n.length)
      | none => false)
  | .datePattern =>
    match p.Nascimento with
    | some d => !isValidDateFormat d
    | none => false
  | .dateValue =>
    match p.Nascimento with
    | some d => !isValidDateValue now d
    | none => false
  | .stackNull => p.Stack.isNone
  | .stackEntry =>
    match p.Stack with
    | some entries => entries.any badEntry
    | none => false

/-- The first check that fails, if any. -/
def firstFailing (now : Time) (p : Payload) : Option Check :=
  Check.order.find? (Check.fails now p)

/-- The status the ordered checks decide. -/
def checkedStatus (now : Time) (p : Payload) : Nat :=
  match firstFailing now p with
  | some c => c.status
  | none => 201

/-- A payload that passes validation: no check fails. -/
def Passes (now : Time) (p : Payload) : Prop :=
  ∀ c : Check, c.fails now p = false

/-- Case-insensitive containment: the term, folded to lower case, is a
contiguous part of the text folded to lower case. -/
def containsCI (text term : List Char) : Bool :=
  decide ((term.map Char.toLower) <:+: (text.map Char.toLower))

/-! ## Sample data -/

/-- A nickname of 32 characters, each two bytes long in UTF-8. -/
def wideNickname : String := ⟨List.replicate 32 'é'⟩

/-- A text of 33 characters. -/
def text33 : String := ⟨List.replicate 33 'a'⟩

/-- A clock in 2026. -/
def clock2026 : Time := ⟨2026, 11, 1, 0⟩

/-- A clock in 2027. -/
def clock2027 : Time := ⟨2027, 1, 1, 0⟩

/-- A payload whose birth date is a day of 2027. -/
def born2027 : Payload :=
  ⟨some "ana", some "Ana", some "2027-01-01", some []⟩

/-- A payload with a nickname of 33 characters and a birth date without
dashes. -/
def longNickBadDate : Payload :=
  ⟨some text33, some "Ana", some "20230101", some []⟩

/-- A payload that passes validation while the clock is in 2026. -/
def anaPayload : Payload :=
  ⟨some "ana", some "Ana", some "2000-10-01", some [some "Go"]⟩

/-- A stored person with the nickname `ana`. -/
def anaRow : Row :=
  { id := "6f1c0c1e-8d3b-4c55-9a35-0a4f4a1d2b00", apelido := "ana", nome := "Ana", nascimento := ⟨2000, 10, 1⟩,
    stack := some [some "Go"] }

/-- A table that holds one person, with the nickname `ana`. -/
def dbWithAna : DB := [anaRow]

/-- The id drawn by the sample runs of the create handler. -/
def freshId : String := "0b9e4a52-7c1d-4e0a-b6f3-3c2d5e8f9a01"

/-- A run of the create handler in 2026 that draws `freshId`, the store being
reachable. -/
def env2026 : Env := ⟨clock2026, freshId, false⟩

/-- A run of the create handler in 2026 during which the store cannot be
reached. -/
def env2026Down : Env := ⟨⟨2026, 3, 9, 120⟩, "52c7a1de-11f0-4b0e-8a44-90d1c0ffee02", true⟩

/-- The text of the generated column of `anaRow`. -/
def anaSearchable : List Char := "Anaana[\"Go\"]".data

/-! ## Lemmas on characters, the date pattern and the calendar -/

theorem isDigit_iff (c : Char) : isDigit c = true ↔ 48 ≤ c.toNat ∧ c.toNat ≤ 57 := by
  simp [isDigit]

theorem isDigit_iff_mem (c : Char) : isDigit c = true ↔ c ∈ decimalDigits := by
  constructor
  · intro h
    rw [isDigit_iff] at h
    obtain ⟨h1, h2⟩ := h
    have hc : Char.ofNat c.toNat = c := Char.ofNat_toNat c
    rw [← hc]
    generalize c.toNat = n at h1 h2
    interval_cases n <;> decide
  · intro h
    simp only [decimalDigits, List.mem_cons, List.mem_singleton, List.not_mem_nil, or_false] at h
    rcases h with h | h | h | h | h | h | h | h | h | h <;> subst h <;> decide

theorem run_digit_cons (c : Char) (cs : List Char) :
    Regex.digit.run (c :: cs) = if isDigit c = true then [cs] else [] := rfl

theorem run_lit_cons (a c : Char) (cs : List Char) :
    (Regex.lit a).run (c :: cs) = if c = a then [cs] else [] := rfl

theorem run_datePattern (a b c d x e f y g h : Char) (rest : List Char) :
    datePattern.run (a :: b :: c :: d :: x :: e :: f :: y :: g :: h :: rest) =
      if (isDigit a && isDigit b && isDigit c && isDigit d && decide (x = '-') && isDigit e &&
          isDigit f && decide (y = '-') && isDigit g && isDigit h) = true then [rest] else [] := by
  simp only [datePattern, Regex.run, repRun]
  cases ha : isDigit a
  · simp [run_digit_cons, run_lit_cons, *]
  cases hb : isDigit b
  · simp [run_digit_cons, run_lit_cons, *]
  cases hc : isDigit c
  · simp [run_digit_cons, run_lit_cons, *]
  cases hd : isDigit d
  · simp [run_digit_cons, run_lit_cons, *]
  by_cases hx : x = '-'
  swap
  · simp [run_digit_cons, run_lit_cons, *]
  cases he : isDigit e
  · simp [run_digit_cons, run_lit_cons, *]
  cases hf : isDigit f
  · simp [run_digit_cons, run_lit_cons, *]
  by_cases hy : y = '-'
  swap
  · simp [run_digit_cons, run_lit_cons, *]
  cases hg : isDigit g
  · simp [run_digit_cons, run_lit_cons, *]
  cases hh : isDigit h
  · simp [run_digit_cons, run_lit_cons, *]
  simp [run_digit_cons, run_lit_cons, *]

theorem isValidDateFormat_iff_data (s : String) :
    isValidDateFormat s = true ↔
      ∃ a b c d e f g h, s.data = [a, b, c, d, '-', e, f, '-', g, h] ∧
        isDigit a = true ∧ isDigit b = true ∧ isDigit c = true ∧ isDigit d = true ∧
        isDigit e = true ∧ isDigit f = true ∧ isDigit g = true ∧ isDigit h = true := by
  unfold isValidDateFormat Regex.matchWhole
  generalize s.data = l
  rcases l with _ | ⟨a, _ | ⟨b, _ | ⟨c, _ | ⟨d, _ | ⟨x, _ | ⟨e, _ | ⟨f, _ | ⟨y, _ | ⟨g, _ | ⟨h, l⟩⟩⟩⟩⟩⟩⟩⟩⟩⟩
  case cons.cons.cons.cons.cons.cons.cons.cons.cons.cons =>
    rw [run_datePattern]
    constructor
    · intro hm
      split at hm
      · rename_i hall
        simp only [Bool.and_eq_true, decide_eq_true_eq] at hall
        simp only [List.any_cons, List.any_nil, Bool.or_false, List.isEmpty_iff] at hm
        subst hm
        obtain ⟨⟨⟨⟨⟨⟨⟨⟨⟨ha, hb⟩, hc⟩, hd⟩, hx⟩, he⟩, hf⟩, hy⟩, hg⟩, hh⟩ := hall
        subst hx hy
        exact ⟨a, b, c, d, e, f, g, h, rfl, ha, hb, hc, hd, he, hf, hg, hh⟩
      · simp at hm
    · rintro ⟨a', b', c', d', e', f', g', h', heq, ha, hb, hc, hd, he, hf, hg, hh⟩
      simp only [List.cons.injEq] at heq
      obtain ⟨rfl, rfl, rfl, rfl, rfl, rfl, rfl, rfl, rfl, rfl, rfl⟩ := heq
      simp [ha, hb, hc, hd, he, hf, hg, hh]
  all_goals simp [datePattern, Regex.run, repRun, run_digit_cons, run_lit_cons]

theorem isValidDateFormat_iff_DateShape (s : String) :
    isValidDateFormat s = true ↔ DateShape s := by
  rw [isValidDateFormat_iff_data]
  constructor
  · rintro ⟨a, b, c, d, e, f, g, h, hdata, ha, hb, hc, hd, he, hf, hg, hh⟩
    rw [isDigit_iff_mem] at ha hb hc hd he hf hg hh
    refine ⟨by rw [String.length, hdata]; rfl, ?_⟩
    intro i hi
    rw [hdata]
    interval_cases i <;> simp [*]
  · rintro ⟨hlen, hpos⟩
    rw [String.length] at hlen
    generalize s.data = l at hlen hpos
    rcases l with _ | ⟨a, _ | ⟨b, _ | ⟨c, _ | ⟨d, _ | ⟨x, _ | ⟨e, _ | ⟨f, _ | ⟨y, _ | ⟨g, _ | ⟨h, _ | ⟨z, l⟩⟩⟩⟩⟩⟩⟩⟩⟩⟩⟩ <;>
      simp at hlen
    have h0 := hpos 0 (by omega)
    have h1 := hpos 1 (by omega)
    have h2 := hpos 2 (by omega)
    have h3 := hpos 3 (by omega)
    have h4 := hpos 4 (by omega)
    have h5 := hpos 5 (by omega)
    have h6 := hpos 6 (by omega)
    have h7 := hpos 7 (by omega)
    have h8 := hpos 8 (by omega)
    have h9 := hpos 9 (by omega)
    simp at h0 h1 h2 h3 h4 h5 h6 h7 h8 h9
    subst h4 h7
    rw [← isDigit_iff_mem] at h0 h1 h2 h3 h5 h6 h8 h9
    exact ⟨a, b, c, d, e, f, g, h, rfl, h0, h1, h2, h3, h5, h6, h8, h9⟩

theorem isLeap_iff (y : Nat) : isLeap y = true ↔ GregorianLeap y := by
  simp only [isLeap, GregorianLeap, Bool.and_eq_true, Bool.or_eq_true, beq_iff_eq, bne_iff_ne, ne_eq]
  omega

theorem daysIn_eq_monthLength (y m : Nat) (h1 : 1 ≤ m) (h12 : m ≤ 12) :
    daysIn m y = monthLength y m := by
  by_cases hl : GregorianLeap y
  · have hl2 : isLeap y = true := (isLeap_iff y).2 hl
    interval_cases m <;> simp [daysIn, monthLength, daysBefore, hl, hl2]
  · have hl2 : isLeap y = false := by
      cases h : isLeap y
      · rfl
      · exact absurd ((isLeap_iff y).1 h) hl
    interval_cases m <;> simp [daysIn, monthLength, daysBefore, hl, hl2]

theorem monthLength_le (y m : Nat) : monthLength y m ≤ 31 := by
  unfold monthLength
  split <;> first | omega | (split <;> omega)

theorem parse_shape (a b c d e f g h : Char)
    (ha : isDigit a = true) (hb : isDigit b = true) (hc : isDigit c = true)
    (hd : isDigit d = true) (he : isDigit e = true) (hf : isDigit f = true)
    (hg : isDigit g = true) (hh : isDigit h = true) :
    parse [a, b, c, d, '-', e, f, '-', g, h] =
      if (e.toNat - 48) * 10 + (f.toNat - 48) = 0 ∨ 12 < (e.toNat - 48) * 10 + (f.toNat - 48) then none
      else if (g.toNat - 48) * 10 + (h.toNat - 48) < 1 ∨
          (g.toNat - 48) * 10 + (h.toNat - 48) >
            daysIn ((e.toNat - 48) * 10 + (f.toNat - 48))
              ((((a.toNat - 48) * 10 + (b.toNat - 48)) * 10 + (c.toNat - 48)) * 10 + (d.toNat - 48))
        then none
      else some
        { year := (((a.toNat - 48) * 10 + (b.toNat - 48)) * 10 + (c.toNat - 48)) * 10 + (d.toNat - 48),
          month := (e.toNat - 48) * 10 + (f.toNat - 48),
          day := (g.toNat - 48) * 10 + (h.toNat - 48), sec := 0 } := by
  simp [parse, atoi, leadingInt, getnum, ha, hb, hc, hd, he, hf, hg, hh]

/-- On a text of the shape `YYYY-MM-DD`, `isValidDateValue` decides whether the
three fields are an existing day with the year between 1900 and the current
year. -/
theorem isValidDateValue_iff_of_shape (now : Time) (s : String)
    (hshape : isValidDateFormat s = true) :
    isValidDateValue now s = true ↔
      RealDate (yearField s) (monthField s) (dayField s) ∧
        1900 ≤ yearField s ∧ yearField s ≤ now.Year := by
  obtain ⟨a, b, c, d, e, f, g, h, hdata, ha, hb, hc, hd, he, hf, hg, hh⟩ :=
    (isValidDateFormat_iff_data s).1 hshape
  have hy : yearField s =
      (((a.toNat - 48) * 10 + (b.toNat - 48)) * 10 + (c.toNat - 48)) * 10 + (d.toNat - 48) := by
    simp [yearField, hdata, decimalValue]
    omega
  have hm : monthField s = (e.toNat - 48) * 10 + (f.toNat - 48) := by
    simp [monthField, hdata, decimalValue]
    omega
  have hday : dayField s = (g.toNat - 48) * 10 + (h.toNat - 48) := by
    simp [dayField, hdata, decimalValue]
    omega
  have hp := parse_shape a b c d e f g h ha hb hc hd he hf hg hh
  rw [← hdata, ← hy, ← hm, ← hday] at hp
  unfold isValidDateValue
  rw [hp]
  generalize yearField s = Y
  generalize monthField s = M
  generalize dayField s = D
  by_cases hmr : M = 0 ∨ 12 < M
  · rw [if_pos hmr]
    simp only [RealDate, Bool.false_eq_true, false_iff]
    omega
  · rw [if_neg hmr, daysIn_eq_monthLength Y M (by omega) (by omega)]
    have hle := monthLength_le Y M
    by_cases hdr : D < 1 ∨ D > monthLength Y M
    · rw [if_pos hdr]
      simp only [RealDate, Bool.false_eq_true, false_iff]
      omega
    · rw [if_neg hdr]
      simp only [Time.Date, Time.Year, RealDate, Bool.or_eq_true, decide_eq_true_eq]
      constructor
      · intro hv
        split at hv
        · exact absurd hv (by simp)
        · omega
      · intro hv
        rw [if_neg (by omega)]

/-! ## Lemmas on the create handler -/

theorem stackLoop_eq_any (entries : List (Option String)) :
    stackLoop entries = entries.any badEntry := by
  induction entries with
  | nil => rfl
  | cons e rest ih =>
    cases e with
    | none => simp [stackLoop, badEntry]
    | some v =>
      by_cases hv : 32 < v.length
      · simp [stackLoop, badEntry, hv]
      · simp [stackLoop, badEntry, hv, ih]

/-- The status of the create handler on a payload with the three required
fields present, as a cascade of its checks. -/
theorem postPessoas_status_present (env : Env) (db : DB) (a n d : String)
    (st : Option (List (Option String))) :
    (postPessoas env db (some ⟨some a, some n, some d, st⟩)).1.status =
      if 32 < a.length ∨ 100 < n.length then 422
      else if isValidDateFormat d = false then 400
      else if isValidDateValue env.now d = false then 422
      else match st with
        | none => 400
        | some entries => if entries.any badEntry = true then 422 else 201 := by
  unfold postPessoas
  by_cases h1 : 32 < a.length ∨ 100 < n.length
  · simp [h1, SendStatus]
  · cases h2 : isValidDateFormat d
    · simp [h1, h2, SendStatus]
    · cases h3 : isValidDateValue env.now d
      · simp [h1, h2, h3, SendStatus]
      · cases st with
        | none => simp [h1, h2, h3, SendStatus]
        | some entries =>
          cases h4 : entries.any badEntry
          · simp [h1, h2, h3, SendStatus, stackLoop_eq_any, h4]
          · have hpos : 0 < entries.length := by
              cases entries with
              | nil => simp at h4
              | cons e r => simp
            simp [h1, h2, h3, SendStatus, stackLoop_eq_any, h4, hpos]

/-- The status of the create handler when a required field is null. -/
theorem postPessoas_status_null (env : Env) (db : DB) (p : Payload)
    (h : p.Apelido = none ∨ p.Nome = none ∨ p.Nascimento = none) :
    (postPessoas env db (some p)).1.status = 422 := by
  obtain ⟨a, n, d, st⟩ := p
  unfold postPessoas
  cases a <;> cases n <;> cases d <;> simp_all [SendStatus]

theorem firstFailing_eq_none_iff (now : Time) (p : Payload) :
    firstFailing now p = none ↔ Passes now p := by
  unfold firstFailing Passes
  rw [List.find?_eq_none]
  constructor
  · intro h c
    have hc : c ∈ Check.order := by cases c <;> simp [Check.order]
    simpa using h c hc
  · intro h c _
    simp [h c]

/-- The create handler answers with the status of the first failing check, and
with 201 when no check fails. -/
theorem postPessoas_status_eq_checkedStatus (env : Env) (db : DB) (p : Payload) :
    (postPessoas env db (some p)).1.status = checkedStatus env.now p := by
  obtain ⟨a, n, d, st⟩ := p
  cases a with
  | none =>
    rw [postPessoas_status_null _ _ _ (Or.inl rfl)]
    simp [checkedStatus, firstFailing, Check.order, Check.fails, Check.status]
  | some a =>
  cases n with
  | none =>
    rw [postPessoas_status_null _ _ _ (Or.inr (Or.inl rfl))]
    simp [checkedStatus, firstFailing, Check.order, Check.fails, Check.status]
  | some n =>
  cases d with
  | none =>
    rw [postPessoas_status_null _ _ _ (Or.inr (Or.inr rfl))]
    simp [checkedStatus, firstFailing, Check.order, Check.fails, Check.status]
  | some d =>
  rw [postPessoas_status_present]
  by_cases h1 : 32 < a.length ∨ 100 < n.length
  · simp [checkedStatus, firstFailing, Check.order, Check.fails, Check.status, h1]
  · cases h2 : isValidDateFormat d
    · simp [checkedStatus, firstFailing, Check.order, Check.fails, Check.status, h1, h2]
    · cases h3 : isValidDateValue env.now d
      · simp [checkedStatus, firstFailing, Check.order, Check.fails, Check.status, h1, h2, h3]
      · cases st with
        | none =>
          simp [checkedStatus, firstFailing, Check.order, Check.fails, Check.status, h1, h2, h3]
        | some entries =>
          cases h4 : entries.any badEntry
          · simp [checkedStatus, firstFailing, Check.order, Check.fails, Check.status, h1, h2,
              h3, h4]
          · simp [checkedStatus, firstFailing, Check.order, Check.fails, Check.status, h1, h2,
              h3, h4]

/-- What a payload that passes validation looks like. -/
theorem passes_iff (now : Time) (p : Payload) :
    Passes now p ↔
      ∃ a n d entries, p = ⟨some a, some n, some d, some entries⟩ ∧ a.length ≤ 32 ∧
        n.length ≤ 100 ∧ isValidDateFormat d = true ∧ isValidDateValue now d = true ∧
        entries.any badEntry = false := by
  constructor
  · intro h
    obtain ⟨a, n, d, st⟩ := p
    have h1 := h .requiredNull
    have h2 := h .tooLong
    have h3 := h .datePattern
    have h4 := h .dateValue
    have h5 := h .stackNull
    have h6 := h .stackEntry
    cases a <;> cases n <;> cases d <;> cases st <;> simp [Check.fails] at h1 h2 h3 h4 h5 h6
    exact ⟨_, _, _, _, rfl, h2.1, h2.2, h3, h4, by simpa using h6⟩
  · rintro ⟨a, n, d, entries, rfl, ha, hn, hf, hv, hst⟩ c
    cases c <;> simp [Check.fails, hf, hv, Nat.not_lt.2 ha, Nat.not_lt.2 hn]
    simpa using hst

/-- On a payload that passes validation the create handler calls `Save` with
the fresh id, ignores what it returns, and answers 201 with the `Location`
header. -/
theorem postPessoas_of_passes (env : Env) (db : DB) (p : Payload) (hp : Passes env.now p) :
    postPessoas env db (some p) =
      ({ status := 201, location := some ("/pessoas/" ++ env.uuid), body := .statusMessage },
        (Save env.down db
          { ID := some env.uuid, Apelido := p.Apelido, Nome := p.Nome,
            Nascimento := p.Nascimento, Stack := p.Stack }).1) := by
  obtain ⟨a, n, d, entries, rfl, ha, hn, hf, hv, hst⟩ := (passes_iff env.now p).1 hp
  have hl : stackLoop entries = false := by rw [stackLoop_eq_any]; exact hst
  simp [postPessoas, SendStatus, Nat.not_lt.2 ha, Nat.not_lt.2 hn, hf, hv, hl]

/-- A payload the create handler does not answer with 201 leaves the table as
it was. -/
theorem postPessoas_rejected_table (env : Env) (db : DB) (body : Option Payload)
    (h : (postPessoas env db body).1.status ≠ 201) : (postPessoas env db body).2 = db := by
  cases body with
  | none => rfl
  | some p =>
    obtain ⟨a, n, d, st⟩ := p
    cases a with
    | none => rfl
    | some a =>
    cases n with
    | none => rfl
    | some n =>
    cases d with
    | none => rfl
    | some d =>
    by_cases h1 : 32 < a.length ∨ 100 < n.length
    · simp [postPessoas, h1]
    · cases h2 : isValidDateFormat d
      · simp [postPessoas, h1, h2]
      · cases h3 : isValidDateValue env.now d
        · simp [postPessoas, h1, h2, h3]
        · cases st with
          | none => simp [postPessoas, h1, h2, h3]
          | some entries =>
            by_cases h4 : 0 < entries.length ∧ stackLoop entries = true
            · simp [postPessoas, h1, h2, h3, h4]
            · exfalso
              apply h
              simp [postPessoas, h1, h2, h3, h4, SendStatus]

theorem anaPayload_passes : Passes clock2026 anaPayload :=
  (passes_iff clock2026 anaPayload).2
    ⟨"ana", "Ana", "2000-10-01", [some "Go"], rfl, by decide, by decide, by decide, by decide,
      by decide⟩

/-! ## Lemmas on the store -/

theorem digitChar_of_digit (c : Char) (n : Nat) (hc : isDigit c = true)
    (hn : n % 10 = c.toNat - 48) : digitChar n = c := by
  rw [isDigit_iff] at hc
  unfold digitChar
  rw [hn]
  have h48 : 48 + (c.toNat - 48) = c.toNat := by omega
  rw [h48, Char.ofNat_toNat]

/-- A date that went into the `DATE` column from a text of the shape
`YYYY-MM-DD` comes back from `to_char` as the same text. -/
theorem toChar_dateIn (s : String) (pd : PgDate) (hf : isValidDateFormat s = true)
    (hd : dateIn s = some pd) : toChar pd = s := by
  obtain ⟨a, b, c, d, e, f, g, h, hdata, ha, hb, hc, hd', he, hf', hg, hh⟩ :=
    (isValidDateFormat_iff_data s).1 hf
  have hp := parse_shape a b c d e f g h ha hb hc hd' he hf' hg hh
  unfold dateIn at hd
  rw [hdata, hp] at hd
  have hs : s = ⟨[a, b, c, d, '-', e, f, '-', g, h]⟩ := by rw [← hdata]
  have ha2 := (isDigit_iff a).1 ha
  have hb2 := (isDigit_iff b).1 hb
  have hc2 := (isDigit_iff c).1 hc
  have hd2 := (isDigit_iff d).1 hd'
  have he2 := (isDigit_iff e).1 he
  have hf2 := (isDigit_iff f).1 hf'
  have hg2 := (isDigit_iff g).1 hg
  have hh2 := (isDigit_iff h).1 hh
  split_ifs at hd with h1 h2
  simp only [Option.some.injEq] at hd
  subst hd
  rw [hs]
  unfold toChar
  congr 1
  simp only [List.cons.injEq, and_true, true_and]
  refine ⟨digitChar_of_digit a _ ha (by omega), digitChar_of_digit b _ hb (by omega),
    digitChar_of_digit c _ hc (by omega), digitChar_of_digit d _ hd' (by omega),
    digitChar_of_digit e _ he (by omega), digitChar_of_digit f _ hf' (by omega),
    digitChar_of_digit g _ hg (by omega), digitChar_of_digit h _ hh (by omega)⟩

/-- A text `isValidDateValue` accepts is a date for the store. -/
theorem dateIn_isSome_of_valid (now : Time) (s : String)
    (hv : isValidDateValue now s = true) : ∃ pd, dateIn s = some pd := by
  unfold isValidDateValue at hv
  unfold dateIn
  cases hparse : parse s.data with
  | none => rw [hparse] at hv; simp at hv
  | some t => exact ⟨_, rfl⟩

theorem scanIlike_length_le (t : List Char) (limit : Nat) (db : DB) :
    (scanIlike t limit db).length ≤ limit := by
  induction db generalizing limit with
  | nil => cases limit <;> simp [scanIlike]
  | cons r rest ih =>
    cases limit with
    | zero => simp [scanIlike]
    | succ k =>
      unfold scanIlike
      split
      · exact ih (k + 1)
      · split
        · simp
        · simp only [List.length_cons]
          have := ih k
          omega
        · exact ih (k + 1)

theorem scanIlike_matches (t : List Char) (limit : Nat) (db : DB) (r : Row)
    (hr : r ∈ scanIlike t limit db) :
    r ∈ db ∧ ∃ text, r.searchable = some text ∧ ilike text t = .ok true := by
  induction db generalizing limit with
  | nil => cases limit <;> simp [scanIlike] at hr
  | cons r0 rest ih =>
    cases limit with
    | zero => simp [scanIlike] at hr
    | succ k =>
      unfold scanIlike at hr
      split at hr
      · obtain ⟨h1, h2⟩ := ih (k + 1) hr
        exact ⟨List.mem_cons_of_mem _ h1, h2⟩
      · rename_i text htext
        split at hr
        · simp at hr
        · rename_i hm
          rcases List.mem_cons.1 hr with h | h
          · subst h
            exact ⟨List.mem_cons_self _ _, text, htext, hm⟩
          · obtain ⟨h1, h2⟩ := ih k h
            exact ⟨List.mem_cons_of_mem _ h1, h2⟩
        · obtain ⟨h1, h2⟩ := ih (k + 1) hr
          exact ⟨List.mem_cons_of_mem _ h1, h2⟩

theorem foldl_appendSlice {α β : Type} (f : α → β) (rows : List α) (init : Option (List β)) :
    rows.foldl (fun ps r => appendSlice ps (f r)) init =
      if rows.isEmpty = true then init else some (init.getD [] ++ rows.map f) := by
  induction rows generalizing init with
  | nil => simp
  | cons r rest ih =>
    simp only [List.foldl_cons, ih]
    cases rest with
    | nil => simp [appendSlice]
    | cons r2 rest2 => simp [appendSlice]

/-- The slice `SearchByTerm` returns: nil when the scan yields no row, else the
rows of the scan in order. -/
theorem SearchByTerm_eq (db : DB) (t : String) :
    SearchByTerm false db t =
      (if (scanIlike t.data 50 db).isEmpty = true then none
        else some ((scanIlike t.data 50 db).map Row.toPessoa), none) := by
  simp [SearchByTerm, foldl_appendSlice]

/-- The text of the generated column is never empty: it ends with the JSON
text of the stack. -/
theorem searchable_ne_nil (r : Row) (text : List Char) (h : r.searchable = some text) :
    text ≠ [] := by
  unfold Row.searchable at h
  cases hst : r.stack with
  | none => rw [hst] at h; simp at h
  | some stack =>
    rw [hst] at h
    simp only [Option.some.injEq] at h
    subst h
    simp [stackText]

/-- No row is selected by the empty term. -/
theorem scanIlike_nil (limit : Nat) (db : DB) : scanIlike [] limit db = [] := by
  induction db generalizing limit with
  | nil => cases limit <;> simp [scanIlike]
  | cons r rest ih =>
    cases limit with
    | zero => simp [scanIlike]
    | succ k =>
      unfold scanIlike
      cases hs : r.searchable with
      | none => simpa using ih (k + 1)
      | some text =>
        have hne := searchable_ne_nil r text hs
        have hl : ilike text [] = .ok false := by
          cases text with
          | nil => exact absurd rfl hne
          | cons c cs => simp [ilike, like]
        simpa [hl] using ih (k + 1)

/-! ## Date validation (C1, C2) -/

/-- C1: on every text of the shape `YYYY-MM-DD`, and with the current year at
least 1900, `isValidDateValue` is true exactly when the text denotes an existing
day of the Gregorian calendar (month in 1..12, day within the length of that
month in that year, leap years included) whose year lies between 1900 and the
current year. `2023-13-01` and `1899-12-31` are rejected, `1900-01-01` is
accepted, and the create handler answers 422 when the shape is right, the date
value is not, and nickname and name are present and within their limits. -/
theorem isValidDateValue_iff_real_date (now : Time) (s : String)
    (hshape : isValidDateFormat s = true) (hnow : 1900 ≤ now.Year) :
    (isValidDateValue now s = true ↔
        RealDate (yearField s) (monthField s) (dayField s) ∧
          1900 ≤ yearField s ∧ yearField s ≤ now.Year) ∧
      (isValidDateFormat "2023-13-01" = true ∧ isValidDateValue now "2023-13-01" = false) ∧
      (isValidDateFormat "1899-12-31" = true ∧ isValidDateValue now "1899-12-31" = false) ∧
      (isValidDateFormat "1900-01-01" = true ∧ isValidDateValue now "1900-01-01" = true) ∧
      ∀ (env : Env) (db : DB) (apelido nome : String) (stack : Option (List (Option String))),
        env.now = now → apelido.length ≤ 32 → nome.length ≤ 100 →
        isValidDateValue now s = false →
          (postPessoas env db (some ⟨some apelido, some nome, some s, stack⟩)).1.status = 422 := by
  refine ⟨isValidDateValue_iff_of_shape now s hshape, ⟨by decide, ?_⟩, ⟨by decide, ?_⟩,
    ⟨by decide, ?_⟩, ?_⟩
  · have hp : parse "2023-13-01".data = none := by decide
    simp [isValidDateValue, hp]
  · have hp : parse "1899-12-31".data = some ⟨1899, 12, 31, 0⟩ := by decide
    simp [isValidDateValue, hp, Time.Date]
  · have hp : parse "1900-01-01".data = some ⟨1900, 1, 1, 0⟩ := by decide
    simp [isValidDateValue, hp, Time.Date]
    omega
  · intro env db apelido nome stack henv ha hn hv
    rw [postPessoas_status_present, henv]
    simp [Nat.not_lt.2 ha, Nat.not_lt.2 hn, hshape, hv]

/-- Witness of C1 at the leap day `2024-02-29` with the clock in 2026. -/
theorem isValidDateValue_iff_real_date_witness :
    isValidDateValue ⟨2026, 11, 1, 0⟩ "2024-02-29" = true ∧
      RealDate (yearField "2024-02-29") (monthField "2024-02-29") (dayField "2024-02-29") :=
  have h := (isValidDateValue_iff_real_date ⟨2026, 11, 1, 0⟩ "2024-02-29" (by decide) (by decide)).1
  ⟨by decide, (h.1 (by decide)).1⟩

/-- C2: `isValidDateFormat` is true exactly on the texts of ten characters with
a decimal digit at positions 0-3, 5-6 and 8-9 and `-` at positions 4 and 7,
nothing before and nothing after (a trailing line feed is not accepted); and
when nickname, name and birth date are present and within their length limits,
the create handler answers 400 on a birth date the predicate rejects, as on
`20230101`. -/
theorem isValidDateFormat_iff_shape :
    (∀ s : String, isValidDateFormat s = true ↔ DateShape s) ∧
      (∀ (env : Env) (db : DB) (apelido nome nascimento : String)
          (stack : Option (List (Option String))),
        apelido.length ≤ 32 → nome.length ≤ 100 → isValidDateFormat nascimento = false →
          (postPessoas env db (some ⟨some apelido, some nome, some nascimento, stack⟩)).1.status
            = 400) ∧
      isValidDateFormat "20230101" = false ∧
      isValidDateFormat "2023-01-01\n" = false ∧
      isValidDateFormat " 2023-01-01" = false ∧
      ∀ (env : Env) (db : DB),
        (postPessoas env db (some ⟨some "ana", some "Ana", some "20230101", some []⟩)).1.status
          = 400 := by
  refine ⟨isValidDateFormat_iff_DateShape, ?_, by decide, by decide, by decide, ?_⟩
  · intro env db apelido nome nascimento stack ha hn hf
    rw [postPessoas_status_present]
    simp [Nat.not_lt.2 ha, Nat.not_lt.2 hn, hf]
  · intro env db
    rw [postPessoas_status_present]
    have hf : isValidDateFormat "20230101" = false := by decide
    simp [hf]
    decide

/-- Witness of C2: a well-shaped date, and the handler on a payload whose date
has its month written with one digit. -/
theorem isValidDateFormat_iff_shape_witness :
    DateShape "2023-01-01" ∧
      (postPessoas env2026 []
        (some ⟨some "ana", some "Ana", some "2023-1-01", some []⟩)).1.status = 400 :=
  ⟨(isValidDateFormat_iff_shape.1 "2023-01-01").1 (by decide),
    isValidDateFormat_iff_shape.2.1 _ _ "ana" "Ana" "2023-1-01" _ (by decide) (by decide)
      (by decide)⟩

/-! ## Field limits and the stack (C3, C4) -/

/-- C3: with the other fields valid, the create handler accepts (201) a
nickname of at most 32 code points with a name of at most 100, and answers 422
to a nickname of 33 or more code points or a name of 101 or more; lengths are
counted in code points, so a nickname of 32 two-byte characters (64 bytes in
UTF-8) is accepted. -/
theorem nickname_and_name_limits (env : Env) (db : DB) (apelido nome nascimento : String)
    (stack : List (Option String))
    (hf : isValidDateFormat nascimento = true)
    (hv : isValidDateValue env.now nascimento = true)
    (hst : stack.any badEntry = false) :
    (apelido.length ≤ 32 ∧ nome.length ≤ 100 →
        (postPessoas env db
          (some ⟨some apelido, some nome, some nascimento, some stack⟩)).1.status = 201) ∧
      (33 ≤ apelido.length ∨ 101 ≤ nome.length →
        (postPessoas env db
          (some ⟨some apelido, some nome, some nascimento, some stack⟩)).1.status = 422) ∧
      wideNickname.length = 32 ∧ wideNickname.utf8ByteSize = 64 ∧
      (nome.length ≤ 100 →
        (postPessoas env db
          (some ⟨some wideNickname, some nome, some nascimento, some stack⟩)).1.status = 201) := by
  have hw : wideNickname.length = 32 := by decide
  refine ⟨?_, ?_, hw, by decide, ?_⟩
  · rintro ⟨ha, hn⟩
    rw [postPessoas_status_present]
    simp [Nat.not_lt.2 ha, Nat.not_lt.2 hn, hf, hv, hst]
  · intro h
    rw [postPessoas_status_present]
    have h1 : 32 < apelido.length ∨ 100 < nome.length := by omega
    simp [h1]
  · intro hn
    rw [postPessoas_status_present]
    simp [hw, Nat.not_lt.2 hn, hf, hv, hst]

/-- Witness of C3: a 32-character nickname is accepted and a 33-character one
is answered 422. -/
theorem nickname_and_name_limits_witness :
    (postPessoas env2026 []
        (some ⟨some wideNickname, some "Ana", some "2000-10-01", some []⟩)).1.status = 201 ∧
      (postPessoas env2026 []
        (some ⟨some text33, some "Ana", some "2000-10-01", some []⟩)).1.status = 422 :=
  ⟨(nickname_and_name_limits env2026 [] wideNickname "Ana"
      "2000-10-01" [] (by decide) (by decide) (by decide)).1 ⟨by decide, by decide⟩,
    (nickname_and_name_limits env2026 [] text33 "Ana"
      "2000-10-01" [] (by decide) (by decide) (by decide)).2.1 (Or.inl (by decide))⟩

/-- C4: with nickname, name and birth date valid, the create handler answers
400 when the stack is absent or null, 201 when it is the empty sequence, and on
a non-empty stack 422 exactly when some entry is null or longer than 32 code
points, 201 otherwise; so `[null]` and a single entry of 33 characters are
answered 422. -/
theorem stack_rules (env : Env) (db : DB) (apelido nome nascimento : String)
    (ha : apelido.length ≤ 32) (hn : nome.length ≤ 100)
    (hf : isValidDateFormat nascimento = true)
    (hv : isValidDateValue env.now nascimento = true) :
    (postPessoas env db (some ⟨some apelido, some nome, some nascimento, none⟩)).1.status = 400 ∧
      (postPessoas env db
        (some ⟨some apelido, some nome, some nascimento, some []⟩)).1.status = 201 ∧
      (∀ entries : List (Option String), entries ≠ [] →
        ((postPessoas env db
            (some ⟨some apelido, some nome, some nascimento, some entries⟩)).1.status = 422 ↔
          ∃ e ∈ entries, e = none ∨ ∃ v, e = some v ∧ 32 < v.length) ∧
        ((postPessoas env db
            (some ⟨some apelido, some nome, some nascimento, some entries⟩)).1.status = 201 ↔
          ¬ ∃ e ∈ entries, e = none ∨ ∃ v, e = some v ∧ 32 < v.length)) ∧
      (postPessoas env db
        (some ⟨some apelido, some nome, some nascimento, some [none]⟩)).1.status = 422 ∧
      (postPessoas env db
        (some ⟨some apelido, some nome, some nascimento, some [some text33]⟩)).1.status = 422 := by
  have hbad : ∀ e : Option String, badEntry e = true ↔ (e = none ∨ ∃ v, e = some v ∧ 32 < v.length) := by
    intro e
    cases e <;> simp [badEntry]
  have key : ∀ entries : List (Option String),
      (postPessoas env db
        (some ⟨some apelido, some nome, some nascimento, some entries⟩)).1.status =
        if entries.any badEntry = true then 422 else 201 := by
    intro entries
    rw [postPessoas_status_present]
    simp [Nat.not_lt.2 ha, Nat.not_lt.2 hn, hf, hv]
  have h33 : badEntry (some text33) = true := by decide
  refine ⟨?_, ?_, ?_, ?_, ?_⟩
  · rw [postPessoas_status_present]
    simp [Nat.not_lt.2 ha, Nat.not_lt.2 hn, hf, hv]
  · rw [key]; simp
  · intro entries _
    rw [key]
    have hany : entries.any badEntry = true ↔
        ∃ e ∈ entries, e = none ∨ ∃ v, e = some v ∧ 32 < v.length := by
      rw [List.any_eq_true]
      constructor
      · rintro ⟨e, he, hb⟩
        exact ⟨e, he, (hbad e).1 hb⟩
      · rintro ⟨e, he, hb⟩
        exact ⟨e, he, (hbad e).2 hb⟩
    rw [← hany]
    cases entries.any badEntry <;> simp
  · rw [key]; simp [badEntry]
  · rw [key]; simp [h33]

/-- Witness of C4 on a birth date of 2000 with the clock in 2026: a stack of
two short entries is accepted, a stack with a null entry is not. -/
theorem stack_rules_witness :
    (postPessoas env2026 []
        (some ⟨some "ana", some "Ana", some "2000-10-01",
          some [some "Go", some "SQL"]⟩)).1.status = 201 ∧
      (postPessoas env2026 []
        (some ⟨some "ana", some "Ana", some "2000-10-01",
          some [some "Go", none]⟩)).1.status = 422 :=
  have h := (stack_rules env2026 [] "ana" "Ana" "2000-10-01"
    (by decide) (by decide) (by decide) (by decide)).2.2.1
  ⟨((h [some "Go", some "SQL"] (by simp)).2).2 (by decide),
    ((h [some "Go", none] (by simp)).1).2 ⟨none, by simp, Or.inl rfl⟩⟩

/-! ## Create and the store (C5, C6) -/

/-- C5, the failing input: the table already holds a person with the nickname
`ana`. The payload passes validation, the handler answers 201 with the
`Location` of the fresh id, the insert was refused (the table is unchanged),
and `Get` on that id returns the error of a missing row: the handler of
`GET /pessoas/:id` answers 404. -/
theorem get_after_create_duplicate_nickname :
    Passes env2026.now anaPayload ∧
      (postPessoas env2026 dbWithAna (some anaPayload)).1.status = 201 ∧
      (postPessoas env2026 dbWithAna (some anaPayload)).1.location
        = some ("/pessoas/" ++ freshId) ∧
      (postPessoas env2026 dbWithAna (some anaPayload)).2 = dbWithAna ∧
      (Get false (postPessoas env2026 dbWithAna (some anaPayload)).2 freshId).2
        = some StoreError.noRows ∧
      (getPessoaById false (postPessoas env2026 dbWithAna (some anaPayload)).2
        (ctxPessoaById freshId [])).status = 404 :=
  ⟨anaPayload_passes, by decide, by decide, by decide, by decide, by decide⟩

/-- C6: on every payload that passes validation, whatever `Save` returns, the
create handler answers 201 with the header `Location` equal to `/pessoas/`
followed by the fresh id, and the table after the request is the one `Save`
left; the response is the same on every table and whether or not the store
can be reached, so a create whose nickname is already taken is answered like
a real creation. -/
theorem create_ignores_save_result (env : Env) (db : DB) (p : Payload)
    (hp : Passes env.now p) :
    (postPessoas env db (some p)).1.status = 201 ∧
      (postPessoas env db (some p)).1.location = some ("/pessoas/" ++ env.uuid) ∧
      (postPessoas env db (some p)).2 =
        (Save env.down db
          { ID := some env.uuid, Apelido := p.Apelido, Nome := p.Nome,
            Nascimento := p.Nascimento, Stack := p.Stack }).1 ∧
      ∀ (other : DB) (down : Bool),
        (postPessoas { env with down := down } other (some p)).1 =
          (postPessoas env db (some p)).1 := by
  rw [postPessoas_of_passes env db p hp]
  refine ⟨rfl, rfl, rfl, ?_⟩
  intro other down
  rw [postPessoas_of_passes { env with down := down } other p hp]

/-- Witness of C6: the nickname `ana` is taken, `Save` returns the uniqueness
violation and leaves the table as it was, and the handler still answers 201
with the `Location` of the id it drew. -/
theorem create_ignores_save_result_witness :
    (Save false dbWithAna
        { ID := some freshId, Apelido := some "ana", Nome := some "Ana",
          Nascimento := some "2000-10-01", Stack := some [some "Go"] }).2
        = some StoreError.uniqueViolation ∧
      (postPessoas env2026 dbWithAna (some anaPayload)).1.status = 201 ∧
      (postPessoas env2026 dbWithAna (some anaPayload)).1.location
        = some ("/pessoas/" ++ freshId) ∧
      (postPessoas ⟨clock2026, freshId, true⟩ [] (some anaPayload)).1
        = (postPessoas env2026 dbWithAna (some anaPayload)).1 :=
  have h := create_ignores_save_result env2026 dbWithAna anaPayload anaPayload_passes
  ⟨by decide, h.1, h.2.1, h.2.2.2 [] true⟩

/-! ## Search (C7, C8) -/

/-- C7, the failing input: the table holds one person whose searchable text is
`Anaana["Go"]`. The term `an` is a case-insensitive substring of that text, yet
`SearchByTerm` returns nothing for it, because the term is the whole `ILIKE`
pattern; and for the term `%` it returns that person, whose searchable text
does not contain `%`. -/
theorem search_is_not_substring_match :
    anaRow.searchable = some anaSearchable ∧
      containsCI anaSearchable "an".data = true ∧
      SearchByTerm false dbWithAna "an" = (none, none) ∧
      containsCI anaSearchable "%".data = false ∧
      SearchByTerm false dbWithAna "%" = (some [anaRow.toPessoa], none) :=
  ⟨by decide, by decide, by decide, by decide, by decide⟩

/-- C8, the failing input: no row matches the term `zzz`, on the empty table
and on the table with one person. `SearchByTerm` returns the nil slice without
error, and the handler of `GET /pessoas` answers 200 with the JSON value
`null`, which is not an array. -/
theorem search_without_match_answers_null :
    SearchByTerm false [] "zzz" = (none, none) ∧
      SearchByTerm false dbWithAna "zzz" = (none, none) ∧
      sliceLen (SearchByTerm false dbWithAna "zzz").1 = 0 ∧
      (getPessoas false [] (ctxPessoas [("t", "zzz")])).status = 200 ∧
      (getPessoas false [] (ctxPessoas [("t", "zzz")])).body = Body.json Json.null ∧
      marshalPessoas (SearchByTerm false dbWithAna "zzz").1 = Json.null ∧
      Json.null.isArray = false :=
  ⟨by decide, by decide, by decide, by decide, rfl, rfl, rfl⟩

/-! ## Validation and the clock, order of the checks (C9, C10) -/

/-- C9 as amended: the validation of the create handler depends on the moment
it runs only through the current year. On two runs whose clocks show the same
year, on any two tables, with any two fresh ids and whether or not the store
can be reached, a payload gets the same status, every check gives the same
verdict, and a payload that is not accepted leaves the table untouched. -/
theorem validation_same_within_year (p : Payload) (e1 e2 : Env) (db1 db2 : DB)
    (hyear : e1.now.Year = e2.now.Year) :
    (postPessoas e1 db1 (some p)).1.status = (postPessoas e2 db2 (some p)).1.status ∧
      (∀ c : Check, c.fails e1.now p = c.fails e2.now p) ∧
      ((postPessoas e1 db1 (some p)).1.status ≠ 201 → (postPessoas e1 db1 (some p)).2 = db1) := by
  have hval : ∀ d : String, isValidDateValue e1.now d = isValidDateValue e2.now d := by
    intro d
    unfold isValidDateValue
    rw [hyear]
  have hfails : ∀ c : Check, c.fails e1.now p = c.fails e2.now p := by
    intro c
    cases c <;> simp only [Check.fails, hval]
  refine ⟨?_, hfails, postPessoas_rejected_table e1 db1 (some p)⟩
  rw [postPessoas_status_eq_checkedStatus, postPessoas_status_eq_checkedStatus]
  unfold checkedStatus firstFailing
  have hfun : Check.fails e1.now p = Check.fails e2.now p := funext hfails
  rw [hfun]

/-- Witness of C9 as amended: two runs in 2026, at different moments, on
different tables, with different ids, one of them with the store out of
reach. -/
theorem validation_same_within_year_witness :
    (postPessoas env2026 [] (some born2027)).1.status =
      (postPessoas env2026Down dbWithAna (some born2027)).1.status :=
  (validation_same_within_year born2027 env2026 env2026Down [] dbWithAna rfl).1

/-- C9, counterexample: the same payload, with birth date `2027-01-01`, is
answered 422 while the clock is in 2026 and 201 once it is in 2027, because
`isValidDateValue` compares the year with that of `time.Now()`. -/
theorem validation_depends_on_clock :
    isValidDateValue clock2026 "2027-01-01" = false ∧
      isValidDateValue clock2027 "2027-01-01" = true ∧
      (postPessoas env2026 [] (some born2027)).1.status = 422 ∧
      (postPessoas ⟨clock2027, freshId, false⟩ [] (some born2027)).1.status = 201 := by
  refine ⟨by decide, by decide, ?_, ?_⟩
  · simp only [born2027]
    rw [postPessoas_status_present]
    decide
  · simp only [born2027]
    rw [postPessoas_status_present]
    decide

/-- C10: on every parsed payload the status of the create handler is that of
the first failing check in the fixed order: required field null (422), nickname
or name too long (422), date pattern (400), date value (422), stack null (400),
bad stack entry (422); it is 201 exactly when no check fails, 400 exactly when
the first failing check is the date pattern or the null stack, and 422 exactly
when it is one of the others. A 33-character nickname with the birth date
`20230101` gets 422. -/
theorem status_is_first_failing_check (env : Env) (db : DB) (p : Payload) :
    (postPessoas env db (some p)).1.status = checkedStatus env.now p ∧
      ((postPessoas env db (some p)).1.status = 201 ↔ Passes env.now p) ∧
      ((postPessoas env db (some p)).1.status = 400 ↔
        firstFailing env.now p = some .datePattern ∨ firstFailing env.now p = some .stackNull) ∧
      ((postPessoas env db (some p)).1.status = 422 ↔
        firstFailing env.now p = some .requiredNull ∨ firstFailing env.now p = some .tooLong ∨
          firstFailing env.now p = some .dateValue ∨
          firstFailing env.now p = some .stackEntry) ∧
      (postPessoas env db (some longNickBadDate)).1.status = 422 := by
  have hpass := firstFailing_eq_none_iff env.now p
  refine ⟨postPessoas_status_eq_checkedStatus env db p, ?_, ?_, ?_, ?_⟩
  · rw [postPessoas_status_eq_checkedStatus, ← hpass]
    unfold checkedStatus
    cases firstFailing env.now p with
    | none => simp
    | some c => cases c <;> simp [Check.status]
  · rw [postPessoas_status_eq_checkedStatus]
    unfold checkedStatus
    cases firstFailing env.now p with
    | none => simp
    | some c => cases c <;> simp [Check.status]
  · rw [postPessoas_status_eq_checkedStatus]
    unfold checkedStatus
    cases firstFailing env.now p with
    | none => simp
    | some c => cases c <;> simp [Check.status]
  · simp only [longNickBadDate]
    rw [postPessoas_status_present]
    have h33 : text33.length = 33 := by decide
    simp [h33]

/-! ## Further properties of the repository and of the search handler -/

/-- When the store is reachable and neither the fresh id nor the nickname is
in the table, `Save` on the person the create handler builds from a payload
that passes validation appends one row, and `Get` on the fresh id reads the
payload back. -/
theorem get_after_create_fresh (env : Env) (db : DB) (p : Payload)
    (hp : Passes env.now p) (hup : env.down = false)
    (hid : ∀ r ∈ db, r.id ≠ env.uuid) (hnick : ∀ r ∈ db, some r.apelido ≠ p.Apelido) :
    (postPessoas env db (some p)).1.location = some ("/pessoas/" ++ env.uuid) ∧
      Get false (postPessoas env db (some p)).2 env.uuid =
        ({ ID := some env.uuid, Apelido := p.Apelido, Nome := p.Nome,
           Nascimento := p.Nascimento, Stack := p.Stack }, none) := by
  rw [postPessoas_of_passes env db p hp]
  refine ⟨rfl, ?_⟩
  obtain ⟨a, n, d, entries, rfl, ha, hn, hf, hv, hst⟩ := (passes_iff env.now p).1 hp
  obtain ⟨pd, hpd⟩ := dateIn_isSome_of_valid env.now d hv
  have hback := toChar_dateIn d pd hf hpd
  have h1 : db.any (fun r => decide (r.id = env.uuid)) = false := by
    rw [List.any_eq_false]
    intro r hr
    simpa using hid r hr
  have h2 : db.any (fun r => decide (r.apelido = a)) = false := by
    rw [List.any_eq_false]
    intro r hr
    have := hnick r hr
    simpa using this
  have h3 : db.find? (fun r => decide (r.id = env.uuid)) = none := by
    rw [List.find?_eq_none]
    intro r hr
    simpa using hid r hr
  simp [Save, hup, hpd, h1, h2, Get, List.find?_append, h3, Row.toPessoa, hback]

/-- Witness of create then get, on the empty table. -/
theorem get_after_create_fresh_witness :
    Get false (postPessoas env2026 [] (some anaPayload)).2 freshId =
      ({ ID := some freshId, Apelido := some "ana", Nome := some "Ana",
         Nascimento := some "2000-10-01", Stack := some [some "Go"] }, none) :=
  (get_after_create_fresh env2026 [] anaPayload anaPayload_passes rfl (by simp) (by simp)).2

/-- `SearchByTerm` returns at most 50 persons, and each of them is a stored
row whose searchable text matches the term taken as an `ILIKE` pattern. -/
theorem SearchByTerm_limit_and_match (down : Bool) (db : DB) (t : String) :
    sliceLen (SearchByTerm down db t).1 ≤ 50 ∧
      ∀ ps, (SearchByTerm down db t).1 = some ps → ∀ p ∈ ps,
        ∃ r ∈ db, p = r.toPessoa ∧
          ∃ text, r.searchable = some text ∧ ilike text t.data = .ok true := by
  cases down with
  | true => simp [SearchByTerm, sliceLen]
  | false =>
    rw [SearchByTerm_eq]
    have hlen := scanIlike_length_le t.data 50 db
    constructor
    · simp only [sliceLen]
      split
      · simp
      · simpa using hlen
    · intro ps hps p hp
      split at hps
      · simp at hps
      · simp only [Option.some.injEq] at hps
        subst hps
        obtain ⟨r, hr, rfl⟩ := List.mem_map.1 hp
        obtain ⟨h1, h2⟩ := scanIlike_matches t.data 50 db r hr
        exact ⟨r, h1, rfl, h2⟩

/-- The handler of `GET /pessoas` reads the term with `c.Params("t")` on a
route without parameters, so it always searches for the empty term; no
searchable text is empty, so on every table and every query string it answers
200 with the JSON value `null`. -/
theorem getPessoas_always_null (db : DB) (query : List (String × String)) :
    (getPessoas false db (ctxPessoas query)).status = 200 ∧
      (getPessoas false db (ctxPessoas query)).body = Body.json Json.null := by
  have hterm : (ctxPessoas query).Params "t" = "" := rfl
  have hscan : scanIlike "".data 50 db = [] := scanIlike_nil 50 db
  simp [getPessoas, hterm, SearchByTerm_eq, hscan, sendJSON, marshalPessoas]

end RinhaGo
